import Mathlib

/-!
Verification of the speculum mirror-list optimizer core: configuration
resolution (`speculum/config.py`), the filter pipeline
(`speculum/filtering.py`), the sorting-key builder (`speculum/sorting.py`),
the limiter (`speculum/limiting.py`), the option parsers
(`speculum/parsers.py`) and the main pipeline tail (`speculum/main.py`).

Python values that flow through the dynamically typed parts of the code
(sort keys, the max-age comparison) are embedded as `PyVal`; operations
that can raise `TypeError` at run time return `Except String _`.
Numeric mirror attributes are modelled as `Int` (the claims under test do
not depend on float rounding), `timedelta` as a count of seconds, and a
compiled regular-expression object as its `search` semantics, a function
from the probed string to whether a match is found.
-/

/-- Embedding of a dynamically typed Python value as it appears in mirror
records and sorting keys: `None`, a bool, an int, a string, a `timedelta`
(in seconds) or the float infinity used by the sorting defaults. -/
inductive PyVal where
  | vNone : PyVal
  | vBool : Bool → PyVal
  | vInt : Int → PyVal
  | vStr : String → PyVal
  | vDur : Int → PyVal
  | vInf : PyVal
deriving DecidableEq, Repr

namespace PyVal

/-- Python truthiness of a value (`bool(x)`). -/
def truthy : PyVal → Bool
  | vNone => false
  | vBool b => b
  | vInt n => n != 0
  | vStr s => s != ""
  | vDur d => d != 0
  | vInf => true

/-- Numeric view: Python treats `bool` as an integer in comparisons. -/
def asNum : PyVal → Option Int
  | vBool b => some (if b then 1 else 0)
  | vInt n => some n
  | _ => none

/-- Python `==` on the embedded values.  Cross-type comparisons other than
the numeric tower yield `False` (never an error). -/
def pyEq : PyVal → PyVal → Bool
  | vNone, vNone => true
  | vStr s, vStr t => s == t
  | vDur d, vDur e => d == e
  | vInf, vInf => true
  | a, b =>
    match a.asNum, b.asNum with
    | some x, some y => x == y
    | _, _ => false

/-- Python `<` on the embedded values; unorderable pairs raise `TypeError`. -/
def pyLt : PyVal → PyVal → Except String Bool
  | vStr s, vStr t => Except.ok (decide (s < t))
  | vDur d, vDur e => Except.ok (decide (d < e))
  | vInf, vInf => Except.ok false
  | vInf, b => if b.asNum.isSome then Except.ok false else Except.error "TypeError: unorderable types"
  | a, vInf => if a.asNum.isSome then Except.ok true else Except.error "TypeError: unorderable types"
  | a, b =>
    match a.asNum, b.asNum with
    | some x, some y => Except.ok (decide (x < y))
    | _, _ => Except.error "TypeError: unorderable types"

/-- Python `<=` on the embedded values; unorderable pairs raise `TypeError`.
In particular `bool <= timedelta` raises, which is what the buggy
`match_max_age` ends up evaluating. -/
def pyLe : PyVal → PyVal → Except String Bool
  | vStr s, vStr t => Except.ok (decide (s ≤ t))
  | vDur d, vDur e => Except.ok (decide (d ≤ e))
  | vInf, vInf => Except.ok true
  | vInf, b => if b.asNum.isSome then Except.ok false else Except.error "TypeError: '<=' not supported between these operand types"
  | a, vInf => if a.asNum.isSome then Except.ok true else Except.error "TypeError: '<=' not supported between these operand types"
  | a, b =>
    match a.asNum, b.asNum with
    | some x, some y => Except.ok (decide (x ≤ y))
    | _, _ => Except.error "TypeError: '<=' not supported between these operand types"

end PyVal

/-- Python `<` on tuples of values (used on sorting keys): lexicographic,
deciding each position with `==` first, so two equal tuples never compare
their elements with `<` and never raise. -/
def pyListLt : List PyVal → List PyVal → Except String Bool
  | [], [] => Except.ok false
  | [], _ :: _ => Except.ok true
  | _ :: _, [] => Except.ok false
  | a :: as_, b :: bs =>
    if PyVal.pyEq a b then pyListLt as_ bs else PyVal.pyLt a b

/-- ASCII lowering of one character; model of `str.casefold` on the
character sets the program actually handles. -/
def lowerChar (c : Char) : Char :=
  if 'A' ≤ c ∧ c ≤ 'Z' then Char.ofNat (c.toNat + 32) else c

/-- Model of Python `str.casefold` (ASCII case folding). -/
def casefold (s : String) : String := ⟨s.data.map lowerChar⟩

/-- Model of Python `str.strip` on the character list. -/
def pyStripChars (cs : List Char) : List Char :=
  ((cs.dropWhile Char.isWhitespace).reverse.dropWhile Char.isWhitespace).reverse

/-- Model of Python `str.strip`. -/
def pyStrip (s : String) : String := ⟨pyStripChars s.data⟩

/-- Whether the first character list is an initial segment of the second. -/
def startsWithChars : List Char → List Char → Bool
  | [], _ => true
  | _ :: _, [] => false
  | p :: ps, h :: hs => p == h && startsWithChars ps hs

/-- Whether the first character list occurs contiguously in the second. -/
def hasInfixChars (pat : List Char) : List Char → Bool
  | [] => startsWithChars pat []
  | h :: hs => startsWithChars pat (h :: hs) || hasInfixChars pat hs

/-- Substring containment; models `re.search` for a literal pattern. -/
def strContains (hay pat : String) : Bool := hasInfixChars pat.data hay.data

/-- One mirror record of the status feed, with the fields the program
reads; `none` stands for an absent key or a JSON `null`. -/
structure Mirror where
  url : Option String := none
  protocol : Option String := none
  last_sync : Option String := none
  completion_pct : Option Int := none
  delay : Option Int := none
  duration_avg : Option Int := none
  duration_stddev : Option Int := none
  score : Option Int := none
  country : Option String := none
  country_code : Option String := none
  active : Option Bool := none
  ipv4 : Option Bool := none
  ipv6 : Option Bool := none
  isos : Option Bool := none
  age : Option Int := none
deriving DecidableEq, Repr

/-- View of an optional string field as a `PyVal`. -/
def optStr : Option String → PyVal
  | some s => PyVal.vStr s
  | none => PyVal.vNone

/-- View of an optional numeric field as a `PyVal`. -/
def optInt : Option Int → PyVal
  | some n => PyVal.vInt n
  | none => PyVal.vNone

/-- View of an optional duration field as a `PyVal`. -/
def optDur : Option Int → PyVal
  | some n => PyVal.vDur n
  | none => PyVal.vNone

/-- `mirror.get(field)` of the source's dict-shaped records. -/
def Mirror.mget (m : Mirror) : String → PyVal
  | "url" => optStr m.url
  | "protocol" => optStr m.protocol
  | "last_sync" => optStr m.last_sync
  | "completion_pct" => optInt m.completion_pct
  | "delay" => optInt m.delay
  | "duration_avg" => optInt m.duration_avg
  | "duration_stddev" => optInt m.duration_stddev
  | "score" => optInt m.score
  | "country" => optStr m.country
  | "country_code" => optStr m.country_code
  | "age" => optDur m.age
  | _ => PyVal.vNone

/-- Embedding of `Configuration` (`speculum/config.py`): a record of the
resolved settings.  `none` is Python's `None`; the two regex slots
(`match`/`nomatch` in the source, renamed here because both words are Lean
keywords) hold the compiled pattern's search semantics; `max_age` is a
`timedelta` in seconds; `output` is the path as a string. -/
structure Configuration where
  sort : Option (List String) := none
  reverse : Bool := false
  countries : Option (List String) := none
  protocols : Option (List String) := none
  max_age : Option Int := none
  match_pat : Option (String → Bool) := none
  nomatch_pat : Option (String → Bool) := none
  complete : Bool := false
  active : Bool := false
  ipv4 : Bool := false
  ipv6 : Bool := false
  isos : Bool := false
  limit : Option Int := none
  header : Bool := false
  output : Option String := none

/-- Python `o or s` on an optional field: the override `o` wins exactly
when it is truthy, where `t` decides truthiness of a present value. -/
def pyOrOpt (t : α → Bool) (s o : Option α) : Option α :=
  match o with
  | some a => if t a then some a else s
  | none => s

/-- Embedding of `Configuration.update`: the source zips the two tuples and
takes `o or s` for every field, so the override side wins exactly when its
value is truthy (a nonempty list, a nonzero duration or integer, `True`, a
pattern object or a path object). -/
def Configuration.update (self other : Configuration) : Configuration where
  sort := pyOrOpt (fun l => !l.isEmpty) self.sort other.sort
  reverse := other.reverse || self.reverse
  countries := pyOrOpt (fun l => !l.isEmpty) self.countries other.countries
  protocols := pyOrOpt (fun l => !l.isEmpty) self.protocols other.protocols
  max_age := pyOrOpt (fun d => d != 0) self.max_age other.max_age
  match_pat := pyOrOpt (fun _ => true) self.match_pat other.match_pat
  nomatch_pat := pyOrOpt (fun _ => true) self.nomatch_pat other.nomatch_pat
  complete := other.complete || self.complete
  active := other.active || self.active
  ipv4 := other.ipv4 || self.ipv4
  ipv6 := other.ipv6 || self.ipv6
  isos := other.isos || self.isos
  limit := pyOrOpt (fun n => n != 0) self.limit other.limit
  header := other.header || self.header
  output := pyOrOpt (fun _ => true) self.output other.output

/-- First operand if present, else the second. -/
def sentinelOr (a b : Option α) : Option α :=
  match a with
  | some x => some x
  | none => b

/-- The merge as the specification words it (`resolve(A, B)`): for every
field the result takes the flag side's value whenever it is set, i.e. not
the unset sentinel (`None` for optional fields, `False` for the boolean
flags), else the file side's value.  Stated from the spec for comparison
with `Configuration.update`. -/
def specResolve (flags file : Configuration) : Configuration where
  sort := sentinelOr flags.sort file.sort
  reverse := flags.reverse || file.reverse
  countries := sentinelOr flags.countries file.countries
  protocols := sentinelOr flags.protocols file.protocols
  max_age := sentinelOr flags.max_age file.max_age
  match_pat := sentinelOr flags.match_pat file.match_pat
  nomatch_pat := sentinelOr flags.nomatch_pat file.nomatch_pat
  complete := flags.complete || file.complete
  active := flags.active || file.active
  ipv4 := flags.ipv4 || file.ipv4
  ipv6 := flags.ipv6 || file.ipv6
  isos := flags.isos || file.isos
  limit := sentinelOr flags.limit file.limit
  header := flags.header || file.header
  output := sentinelOr flags.output file.output

/-- Every set optional field of the configuration is also truthy: rules
out a set-but-falsy value (an empty list, a zero-hour `max_age`, a zero
`limit`), the values on which truthy overlay and sentinel merge differ. -/
def truthySet (cfg : Configuration) : Prop :=
  cfg.sort ≠ some [] ∧ cfg.countries ≠ some [] ∧ cfg.protocols ≠ some [] ∧
    cfg.max_age ≠ some 0 ∧ cfg.limit ≠ some 0

/-- Boundary model of the standard `ConfigParser` object: string, integer
and boolean lookups by section and key, `none` when the key is missing
(the `fallback=None` paths of the source). -/
structure IniFile where
  get : String → String → Option String
  getint : String → String → Option Int
  getboolean : String → String → Option Bool

/-- Embedding of `get_cistrings`: a list of casefolded tokens from the key
iff it is present and nonempty, split on commas (stripping each token)
when a comma occurs, else on whitespace. -/
def get_cistrings (p : IniFile) (sec key : String) : List String :=
  match p.get sec key with
  | none => []
  | some s =>
    if s = "" then []
    else if s.contains ',' then (s.splitOn ",").map (fun t => casefold (pyStrip t))
    else ((s.splitOn " ").filter (fun t => t ≠ "")).map casefold

/-- Embedding of `get_hours`: a timedelta of hours if the key parses. -/
def get_hours (p : IniFile) (sec key : String) : Option Int :=
  (p.getint sec key).map (fun h => h * 3600)

/-- Embedding of `get_path`: a path if the key is present and truthy. -/
def get_path (p : IniFile) (sec key : String) : Option String :=
  match p.get sec key with
  | some s => if s ≠ "" then some s else none
  | none => none

/-- Embedding of `get_regex`: a compiled pattern if the key is present and
truthy; compilation is modelled as literal-substring search semantics. -/
def get_regex (p : IniFile) (sec key : String) : Option (String → Bool) :=
  match p.get sec key with
  | some s => if s ≠ "" then some (fun u => strContains u s) else none
  | none => none

/-- Embedding of `Configuration.from_parser` (file-sourced settings): note
that the list-valued keys always produce a list — an absent key becomes
the empty list, not `None`. -/
def Configuration.from_ini (p : IniFile) : Configuration where
  sort := some (get_cistrings p "sorting" "sort")
  reverse := (p.getboolean "sorting" "reverse").getD false
  countries := some (get_cistrings p "filtering" "countries")
  protocols := some (get_cistrings p "filtering" "protocols")
  max_age := get_hours p "filtering" "max_age"
  match_pat := get_regex p "filtering" "match"
  nomatch_pat := get_regex p "filtering" "nomatch"
  complete := (p.getboolean "filtering" "complete").getD false
  active := (p.getboolean "filtering" "active").getD false
  ipv4 := (p.getboolean "filtering" "ipv4").getD false
  ipv6 := (p.getboolean "filtering" "ipv6").getD false
  isos := (p.getboolean "filtering" "isos").getD false
  limit := p.getint "output" "limit"
  header := (p.getboolean "output" "header").getD false
  output := get_path p "output" "file"

/-- Embedding of `Configuration.load`: the flag-sourced settings alone,
or, when a config file was given, the file-sourced settings updated by the
flag-sourced ones. -/
def Configuration.load (flags : Configuration) (config : Option IniFile) : Configuration :=
  match config with
  | some p => (Configuration.from_ini p).update flags
  | none => flags

/-- Truthy string membership test shared by the country and protocol
filters: Python's `if value := mirror.get(field): return value.casefold()
in requested` pattern — a present, nonempty string whose casefold is in
the requested list. -/
def strTruthyMem (cs : List String) : Option String → Bool
  | some c => (c != "") && cs.contains (casefold c)
  | none => false

/-- Embedding of `match_country`: vacuously true when `countries` is
`None`; otherwise the mirror's truthy country name or truthy country code
casefolds into the requested list. -/
def match_country (cfg : Configuration) (m : Mirror) : Bool :=
  match cfg.countries with
  | none => true
  | some cs => strTruthyMem cs m.country || strTruthyMem cs m.country_code

/-- Embedding of `match_protocols`. -/
def match_protocols (cfg : Configuration) (m : Mirror) : Bool :=
  match cfg.protocols with
  | none => true
  | some ps => strTruthyMem ps m.protocol

/-- Embedding of `match_max_age`.  The source reads
`if age := mirror.get('age') is not None:` — the walrus binds the whole
comparison, so `age` is the boolean presence flag, and the subsequent
`age <= config.max_age` compares a `bool` with a `timedelta`, which
raises `TypeError` whenever the age is present and max_age is set. -/
def match_max_age (cfg : Configuration) (m : Mirror) : Except String Bool :=
  match cfg.max_age with
  | none => Except.ok true
  | some maxAge =>
    let age : PyVal := PyVal.vBool m.age.isSome
    if age.truthy then PyVal.pyLe age (PyVal.vDur maxAge) else Except.ok false

/-- Embedding of `match_regex`: vacuously true when `match` is `None`;
otherwise the truthiness of `pattern.search(url)` for a truthy url, and
`False` for an absent or empty url. -/
def match_regex (cfg : Configuration) (m : Mirror) : Bool :=
  match cfg.match_pat with
  | none => true
  | some pat =>
    match m.url with
    | some u => if u != "" then pat u else false
    | none => false

/-- Embedding of `match_regex_inv`: the source returns
`config.nomatch.search(url)` with no negation, so for a truthy url the
predicate is the truthiness of the search result itself. -/
def match_regex_inv (cfg : Configuration) (m : Mirror) : Bool :=
  match cfg.nomatch_pat with
  | none => true
  | some pat =>
    match m.url with
    | some u => if u != "" then pat u else false
    | none => false

/-- Embedding of `match_complete`: `mirror.get('completion_pct') == 1`
when the complete flag is set (an absent value compares unequal). -/
def match_complete (cfg : Configuration) (m : Mirror) : Bool :=
  if cfg.complete then m.completion_pct == some 1 else true

/-- Embedding of `match_active`: truthiness of `mirror.get('active')`. -/
def match_active (cfg : Configuration) (m : Mirror) : Bool :=
  if cfg.active then m.active.getD false else true

/-- Embedding of `match_ipv4`. -/
def match_ipv4 (cfg : Configuration) (m : Mirror) : Bool :=
  if cfg.ipv4 then m.ipv4.getD false else true

/-- Embedding of `match_ipv6`. -/
def match_ipv6 (cfg : Configuration) (m : Mirror) : Bool :=
  if cfg.ipv6 then m.ipv6.getD false else true

/-- Embedding of `match_isos`. -/
def match_isos (cfg : Configuration) (m : Mirror) : Bool :=
  if cfg.isos then m.isos.getD false else true

/-- The `MATCH_FUNCS` tuple, in source order; the pure predicates are
lifted into `Except` alongside the fallible `match_max_age`. -/
def MATCH_FUNCS : List (Configuration → Mirror → Except String Bool) :=
  [fun c m => Except.ok (match_country c m),
   fun c m => Except.ok (match_protocols c m),
   match_max_age,
   fun c m => Except.ok (match_regex c m),
   fun c m => Except.ok (match_regex_inv c m),
   fun c m => Except.ok (match_complete c m),
   fun c m => Except.ok (match_active c m),
   fun c m => Except.ok (match_ipv4 c m),
   fun c m => Except.ok (match_ipv6 c m),
   fun c m => Except.ok (match_isos c m)]

/-- Short-circuiting `all(...)` over a list of fallible predicates. -/
def matchAllAux (cfg : Configuration) (m : Mirror) :
    List (Configuration → Mirror → Except String Bool) → Except String Bool
  | [] => Except.ok true
  | f :: fs =>
    match f cfg m with
    | Except.error e => Except.error e
    | Except.ok true => matchAllAux cfg m fs
    | Except.ok false => Except.ok false

/-- Embedding of `match` (`speculum/filtering.py`; `match` is a Lean
keyword): the conjunction of all `MATCH_FUNCS`. -/
def matchAll (cfg : Configuration) (m : Mirror) : Except String Bool :=
  matchAllAux cfg m MATCH_FUNCS

/-- Python's `filter`, fully consumed, over a fallible predicate. -/
def pyFilter (f : α → Except String Bool) : List α → Except String (List α)
  | [] => Except.ok []
  | x :: xs =>
    match f x with
    | Except.error e => Except.error e
    | Except.ok true =>
      match pyFilter f xs with
      | Except.error e => Except.error e
      | Except.ok l => Except.ok (x :: l)
    | Except.ok false => pyFilter f xs

/-- The `SORTING_DEFAULTS` table (`speculum/mirrors.py`): per-field
fallback values used when a mirror lacks the requested sort field. -/
def SORTING_DEFAULTS : List (String × PyVal) :=
  [("url", PyVal.vStr ""),
   ("protocol", PyVal.vStr "~"),
   ("last_sync", PyVal.vStr "~"),
   ("completion_pct", PyVal.vInt 0),
   ("delay", PyVal.vInf),
   ("duration_avg", PyVal.vInf),
   ("duration_stddev", PyVal.vInf),
   ("score", PyVal.vInf),
   ("country", PyVal.vStr "~"),
   ("country_code", PyVal.vStr "~")]

/-- Embedding of the key function built by `get_sorting_key`
(`speculum/sorting.py`).  Unknown options are skipped (with a one-time
warning, a logging side effect not modelled).  For a known option the
source reads `if value := mirror.get(option) is not None:` — the walrus
binds the whole comparison, so when the mirror has the field the value
appended is the boolean `True`, not the mirror's value; only absent
fields receive the table's default. -/
def get_key (sorting : List String) (defaults : List (String × PyVal)) (m : Mirror) : List PyVal :=
  match sorting with
  | [] => []
  | option :: rest =>
    match defaults.lookup option with
    | none => get_key rest defaults m
    | some dflt =>
      (if m.mget option != PyVal.vNone then PyVal.vBool true else dflt) ::
        get_key rest defaults m

/-- Stable insertion of `x` into the already sorted later elements: walk
past every `y` whose key is strictly below the key of `x`, propagating
any comparison `TypeError`.  Together with `sortE` this is the unique
stable ascending sort, the semantics Python guarantees for `sorted`. -/
def ordInsertE (lt : κ → κ → Except String Bool) (k : α → κ) (x : α) :
    List α → Except String (List α)
  | [] => Except.ok [x]
  | y :: ys =>
    match lt (k y) (k x) with
    | Except.error e => Except.error e
    | Except.ok true =>
      match ordInsertE lt k x ys with
      | Except.error e => Except.error e
      | Except.ok zs => Except.ok (y :: zs)
    | Except.ok false => Except.ok (x :: y :: ys)

/-- Stable sort by key under a fallible strict comparison. -/
def sortE (lt : κ → κ → Except String Bool) (k : α → κ) :
    List α → Except String (List α)
  | [] => Except.ok []
  | x :: xs =>
    match sortE lt k xs with
    | Except.error e => Except.error e
    | Except.ok l => ordInsertE lt k x l

/-- Model of Python `sorted(xs, key=k, reverse=rev)`: the stable
ascending sort under the key order, or under the flipped order when
`rev`; both directions keep tied records in feed order, as the Python
documentation guarantees. -/
def pySortedE (lt : κ → κ → Except String Bool) (k : α → κ) (rev : Bool)
    (xs : List α) : Except String (List α) :=
  if rev then sortE (fun a b => lt b a) k xs else sortE lt k xs

/-- Counted tail of `limit` (`speculum/limiting.py`): the enumeration
starts at 1 and breaks once the count exceeds the maximum. -/
def limitAux (maximum : Option Int) : Int → List α → List α
  | _, [] => []
  | count, m :: ms =>
    match maximum with
    | some mx => if count > mx then [] else m :: limitAux maximum (count + 1) ms
    | none => m :: limitAux maximum (count + 1) ms

/-- Embedding of `limit`: yields mirrors up to the specified maximum;
`none` passes everything through. -/
def limit (ms : List α) (maximum : Option Int) : List α :=
  limitAux maximum 1 ms

/-- Accumulated digits of a numeral. -/
def digitsToNat (cs : List Char) : Nat :=
  cs.foldl (fun acc c => acc * 10 + (c.toNat - 48)) 0

/-- Model of Python `int(string)`: optional sign followed by digits after
stripping surrounding whitespace; anything else raises `ValueError`. -/
def pyParseInt (s : String) : Except String Int :=
  match pyStripChars s.data with
  | [] => Except.error ("invalid literal for int() with base 10: " ++ s)
  | '-' :: rest =>
    if rest ≠ [] ∧ rest.all Char.isDigit then Except.ok (-(digitsToNat rest : Int))
    else Except.error ("invalid literal for int() with base 10: " ++ s)
  | '+' :: rest =>
    if rest ≠ [] ∧ rest.all Char.isDigit then Except.ok ((digitsToNat rest : Int))
    else Except.error ("invalid literal for int() with base 10: " ++ s)
  | cs =>
    if cs.all Char.isDigit then Except.ok ((digitsToNat cs : Int))
    else Except.error ("invalid literal for int() with base 10: " ++ s)

/-- Embedding of `posint` (`speculum/parsers.py`): the parsed integer when
it is greater than zero, else a `ValueError`. -/
def posint (s : String) : Except String Int :=
  match pyParseInt s with
  | Except.error e => Except.error e
  | Except.ok n => if n > 0 then Except.ok n else Except.error "Integer must be greater than zero."

/-- Embedding of `mirror_url`: append `$repo/os/$arch` to the URL's path
(for the query-free and fragment-free URLs of the feed, the
urlparse/urlunparse round trip is a string append). -/
def mirrorUrl (url : String) : String :=
  (if url.endsWith "/" then url else url ++ "/") ++ "$repo/os/$arch"

/-- One output line of the mirror list. -/
def serverLine (m : Mirror) : String :=
  "Server = " ++ mirrorUrl (m.url.getD "")

/-- Truthiness of the resolved `sort` setting (`if config.sort:`). -/
def truthySort : Option (List String) → Bool
  | some (_ :: _) => true
  | _ => false

/-- Truthiness of the resolved `limit` setting (`if config.limit:`). -/
def truthyLimit : Option Int → Bool
  | some n => n != 0
  | none => false

/-- Embedding of the tail of `main` (`speculum/main.py`) after the
configuration is resolved: filter, optionally sort (with `args.reverse`),
optionally limit, then either fail with exit code 1 when no mirror is
left and the limit is not exactly 0, or succeed with exit code 0 and the
`Server = ...` mirror lines (the output sink is modelled as succeeding;
header lines are not part of the mirror lines). -/
def mainCore (cfg : Configuration) (reverse : Bool) (mirrors : List Mirror) :
    Except String (Nat × List String) :=
  match pyFilter (matchAll cfg) mirrors with
  | Except.error e => Except.error e
  | Except.ok filtered =>
    match (if truthySort cfg.sort then
             pySortedE pyListLt (get_key (cfg.sort.getD []) SORTING_DEFAULTS) reverse filtered
           else Except.ok filtered) with
    | Except.error e => Except.error e
    | Except.ok sortedMs =>
      let limited := if truthyLimit cfg.limit then limit sortedMs cfg.limit else sortedMs
      if limited.isEmpty && decide (cfg.limit ≠ some 0) then Except.ok (1, [])
      else Except.ok (0, limited.map serverLine)

/-- Flag-sourced settings reachable from `--max-age 0`: a set (non-`None`)
but falsy `max_age` of zero hours; everything else unset. -/
def cexA : Configuration := { max_age := some 0 }

/-- Literal-pattern search for the token `mirror`. -/
def patMirror : String → Bool := fun u => strContains u "mirror"

/-- File-sourced settings with every field set. -/
def cexB : Configuration where
  sort := some ["score"]
  reverse := true
  countries := some ["de"]
  protocols := some ["https"]
  max_age := some 86400
  match_pat := some patMirror
  nomatch_pat := some patMirror
  complete := true
  active := true
  ipv4 := true
  ipv6 := true
  isos := true
  limit := some 5
  header := true
  output := some "/etc/pacman.d/mirrorlist"

/-- A mirror with score 1 and delay 5, first in the feed. -/
def mirrorDelay5 : Mirror := { url := some "https://a.example.org/", score := some 1, delay := some 5 }

/-- A mirror with score 1 and delay 3, second in the feed. -/
def mirrorDelay3 : Mirror := { url := some "https://b.example.org/", score := some 1, delay := some 3 }

/-- A configuration with a 24-hour `max_age` and nothing else set. -/
def cfgAge : Configuration := { max_age := some 86400 }

/-- A mirror whose derived age is present (one hour). -/
def mAged : Mirror := { url := some "https://a.example.org/", age := some 3600 }

/-- A mirror with no age (no `last_sync`). -/
def mAgeless : Mirror := { url := some "https://a.example.org/" }

/-- A configuration whose `nomatch` pattern is the literal `mirror`. -/
def cfgNom : Configuration := { nomatch_pat := some patMirror }

/-- A mirror whose url matches the `nomatch` pattern. -/
def mMirrorUrl : Mirror := { url := some "https://mirror.example.com/" }

/-- A mirror whose url does not match the `nomatch` pattern. -/
def mOtherUrl : Mirror := { url := some "https://other.org/" }

/-- A configuration filtering for the (casefolded) country token `de`. -/
def cfgDE : Configuration := { countries := some ["de"] }

/-- Feed mirror 1: country code `DE`. -/
def mDE1 : Mirror := { url := some "https://a/", country := some "Germany", country_code := some "DE" }

/-- Feed mirror 2: country code `US`. -/
def mUS : Mirror := { url := some "https://b/", country := some "United States", country_code := some "US" }

/-- Feed mirror 3: country code `DE`, country name absent. -/
def mDE2 : Mirror := { url := some "https://c/", country_code := some "DE" }

/-- A configuration whose resolved `countries` is the empty list. -/
def cfgEmptyC : Configuration := { countries := some [] }

/-- A config file none of whose keys are present. -/
def ini0 : IniFile := ⟨fun _ _ => none, fun _ _ => none, fun _ _ => none⟩

/-- Flag-sourced settings with nothing set. -/
def flags0 : Configuration := {}

/-- A concrete fallible strict comparison on naturals, for exercising the
stability theorem. -/
def ltNat : Nat → Nat → Except String Bool := fun a b => Except.ok (decide (a < b))

theorem limitAux_none {α : Type} (ms : List α) : ∀ c : Int, limitAux none c ms = ms := by
  induction ms with
  | nil => intro c; rfl
  | cons m ms ih => intro c; simp [limitAux, ih]

theorem limitAux_some {α : Type} (ms : List α) :
    ∀ mx c : Int, limitAux (some mx) c ms = ms.take (mx - c + 1).toNat := by
  induction ms with
  | nil => intro mx c; simp [limitAux]
  | cons m ms ih =>
    intro mx c
    simp only [limitAux]
    by_cases h : c > mx
    · rw [if_pos h]
      have h0 : (mx - c + 1).toNat = 0 := by omega
      rw [h0]
      simp
    · rw [if_neg h, ih]
      have h1 : (mx - c + 1).toNat = (mx - (c + 1) + 1).toNat + 1 := by omega
      rw [h1, List.take_succ_cons]

/-- C5: for every finite record sequence and maximum at least 0,
`limit(records, maximum)` is exactly the length-`min(len(records),
maximum)` initial segment of the records in original order, and
`limit(records, None)` is the records unchanged. -/
theorem limit_take {α : Type} (ms : List α) (mx : Int) (hmx : 0 ≤ mx) :
    limit ms (some mx) = ms.take mx.toNat ∧
      (limit ms (some mx)).length = min ms.length mx.toNat ∧
      limit ms none = ms := by
  have key : limit ms (some mx) = ms.take mx.toNat := by
    unfold limit
    rw [limitAux_some]
    congr 1
    omega
  refine ⟨key, ?_, limitAux_none ms 1⟩
  rw [key, List.length_take, Nat.min_comm]

theorem limit_take_witness :
    (0 : Int) ≤ 2 ∧
      (limit [10, 20, 30] (some 2) = [10, 20, 30].take ((2 : Int)).toNat ∧
        (limit [10, 20, 30] (some 2)).length = min ([10, 20, 30] : List Nat).length ((2 : Int)).toNat ∧
        limit ([10, 20, 30] : List Nat) none = [10, 20, 30]) :=
  ⟨by decide, limit_take [10, 20, 30] 2 (by decide)⟩

/-- C9: `posint` returns the parsed integer when it is greater than zero,
fails with the must-be-greater-than-zero message on every token denoting
an integer at most zero, and propagates the parse error on a token not
denoting an integer. -/
theorem posint_spec (s : String) :
    (∀ n : Int, pyParseInt s = Except.ok n →
      (0 < n → posint s = Except.ok n) ∧
      (n ≤ 0 → posint s = Except.error "Integer must be greater than zero.")) ∧
    (∀ e : String, pyParseInt s = Except.error e → posint s = Except.error e) := by
  constructor
  · intro n h
    unfold posint
    rw [h]
    constructor
    · intro hpos
      simp [hpos]
    · intro hle
      simp [show ¬ (n > 0) by omega]
  · intro e h
    unfold posint
    rw [h]

theorem posint_spec_witness :
    pyParseInt "3" = Except.ok 3 ∧ (0 : Int) < 3 ∧ posint "3" = Except.ok 3 :=
  ⟨rfl, by decide, ((posint_spec "3").1 3 rfl).1 (by decide)⟩

/-- C2 (code bug): for the requested fields `["score", "delay"]` the key
function appends the presence boolean `True`, not the mirror's value, for
every present field, so two mirrors with equal score and distinct delays 5
and 3 receive the identical key `(True, True)` and the ascending sort
keeps the delay-5 mirror first, where the specified key `(score, delay)`
would place the delay-3 mirror first. -/
theorem get_key_appends_presence_flag :
    mirrorDelay5.score = mirrorDelay3.score ∧
    mirrorDelay5.delay = some 5 ∧
    mirrorDelay3.delay = some 3 ∧
    get_key ["score", "delay"] SORTING_DEFAULTS mirrorDelay5 = [PyVal.vBool true, PyVal.vBool true] ∧
    get_key ["score", "delay"] SORTING_DEFAULTS mirrorDelay3 = [PyVal.vBool true, PyVal.vBool true] ∧
    pySortedE pyListLt (get_key ["score", "delay"] SORTING_DEFAULTS) false
        [mirrorDelay5, mirrorDelay3] = Except.ok [mirrorDelay5, mirrorDelay3] :=
  ⟨rfl, rfl, rfl, rfl, rfl, rfl⟩

/-- C3 (code bug): with `max_age` set, a mirror whose age is present makes
`match_max_age` evaluate `True <= timedelta`, a `TypeError`, instead of
comparing the age; only a mirror with no age is (correctly) rejected. -/
theorem match_max_age_raises :
    cfgAge.max_age = some 86400 ∧
    mAged.age = some 3600 ∧
    match_max_age cfgAge mAged =
      Except.error "TypeError: '<=' not supported between these operand types" ∧
    mAgeless.age = none ∧
    match_max_age cfgAge mAgeless = Except.ok false :=
  ⟨rfl, rfl, rfl, rfl, rfl⟩

/-- C4 (code bug): `match_regex_inv` returns the truthiness of
`nomatch.search(url)` without negation, so a mirror whose url matches the
`nomatch` pattern is kept and one whose url does not match is rejected —
the exact opposite of the documented exclusion semantics. -/
theorem match_regex_inv_not_negated :
    cfgNom.nomatch_pat = some patMirror ∧
    patMirror "https://mirror.example.com/" = true ∧
    match_regex_inv cfgNom mMirrorUrl = true ∧
    patMirror "https://other.org/" = false ∧
    match_regex_inv cfgNom mOtherUrl = false :=
  ⟨rfl, rfl, rfl, rfl, rfl⟩

/-- C1 counterexample: the flag settings `--max-age 0` have `max_age` set
(not the `None` sentinel) yet the merge of `Configuration.update` returns
the file side's value for that field, because the source merges with the
truthy `o or s`, not a sentinel test; the spec's sentinel merge would
return the flag side's zero duration.  The file side has every field set. -/
theorem update_is_truthy_not_sentinel :
    cexA.max_age = some 0 ∧ cexA.max_age ≠ none ∧
    cexB.sort.isSome = true ∧ cexB.countries.isSome = true ∧
    cexB.protocols.isSome = true ∧ cexB.max_age.isSome = true ∧
    cexB.match_pat.isSome = true ∧ cexB.nomatch_pat.isSome = true ∧
    cexB.limit.isSome = true ∧ cexB.output.isSome = true ∧
    (cexB.update cexA).max_age = some 86400 ∧
    (specResolve cexA cexB).max_age = some 0 :=
  ⟨rfl, by decide, rfl, rfl, rfl, rfl, rfl, rfl, rfl, rfl, rfl, rfl⟩

theorem pyOrOpt_eq_sentinelOr {α : Type} (t : α → Bool) (s o : Option α)
    (h : ∀ a, o = some a → t a = true) : pyOrOpt t s o = sentinelOr o s := by
  cases o with
  | none => rfl
  | some a => simp [pyOrOpt, sentinelOr, h a rfl]

/-- C1 amended: whenever every set field of the flag-sourced settings is
also truthy — which rules out exactly the set-but-falsy values such as a
zero-hour `max_age`, an empty list or a zero limit — the merge performed
by `Configuration.update` agrees, on every field including the boolean
flags, with the sentinel-based merge that takes the flag side whenever it
is set and the file side otherwise. -/
theorem update_sentinel_of_truthy (A B : Configuration) (hA : truthySet A) :
    B.update A = specResolve A B := by
  obtain ⟨h1, h2, h3, h4, h5⟩ := hA
  have hlist : ∀ (o : Option (List String)) (s : Option (List String)),
      o ≠ some [] → pyOrOpt (fun l => !l.isEmpty) s o = sentinelOr o s := by
    intro o s ho
    refine pyOrOpt_eq_sentinelOr _ _ _ (fun l hl => ?_)
    cases l with
    | nil => exact absurd hl ho
    | cons a l => rfl
  have hint : ∀ (o : Option Int) (s : Option Int),
      o ≠ some 0 → pyOrOpt (fun n => n != 0) s o = sentinelOr o s := by
    intro o s ho
    refine pyOrOpt_eq_sentinelOr _ _ _ (fun n hn => ?_)
    have : n ≠ 0 := fun h0 => ho (h0 ▸ hn)
    simp [this]
  have htriv : ∀ {α : Type} (o : Option α) (s : Option α),
      pyOrOpt (fun _ => true) s o = sentinelOr o s :=
    fun o s => pyOrOpt_eq_sentinelOr _ _ _ (fun _ _ => rfl)
  simp only [Configuration.update, specResolve, Configuration.mk.injEq]
  exact ⟨hlist A.sort B.sort h1, trivial, hlist A.countries B.countries h2,
    hlist A.protocols B.protocols h3, hint A.max_age B.max_age h4,
    htriv A.match_pat B.match_pat, htriv A.nomatch_pat B.nomatch_pat,
    trivial, trivial, trivial, trivial, trivial, hint A.limit B.limit h5,
    trivial, htriv A.output B.output⟩

theorem update_sentinel_of_truthy_witness :
    truthySet flags0 ∧ cexB.update flags0 = specResolve flags0 cexB :=
  ⟨⟨by decide, by decide, by decide, by decide, by decide⟩,
    update_sentinel_of_truthy flags0 cexB
      ⟨by decide, by decide, by decide, by decide, by decide⟩⟩

theorem filter_ordInsertE {κ α : Type} [DecidableEq κ] (lt : κ → κ → Except String Bool)
    (k : α → κ) (hirr : ∀ u : κ, lt u u = Except.ok false) (v : κ) (x : α) :
    ∀ l zs : List α, ordInsertE lt k x l = Except.ok zs →
      zs.filter (fun a => decide (k a = v)) = (x :: l).filter (fun a => decide (k a = v)) := by
  intro l
  induction l with
  | nil =>
    intro zs h
    simp only [ordInsertE] at h
    injection h with h'
    subst h'
    rfl
  | cons y ys ih =>
    intro zs h
    simp only [ordInsertE] at h
    cases hlt : lt (k y) (k x) with
    | error e =>
      rw [hlt] at h
      exact Except.noConfusion h
    | ok b =>
      rw [hlt] at h
      cases b with
      | false =>
        injection h with h'
        subst h'
        rfl
      | true =>
        cases hrec : ordInsertE lt k x ys with
        | error e =>
          rw [hrec] at h
          exact Except.noConfusion h
        | ok ws =>
          rw [hrec] at h
          injection h with h'
          subst h'
          have hws := ih ws hrec
          by_cases hx : k x = v
          · have hyx : ¬ k y = k x := by
              intro he
              rw [he, hirr (k x)] at hlt
              simp at hlt
            have hy : ¬ k y = v := fun hyv => hyx (hyv.trans hx.symm)
            simp only [List.filter_cons, hws, List.filter_cons, hx, hy]
            simp [hx, hy]
          · simp only [List.filter_cons, hws, List.filter_cons]
            simp [hx]

theorem filter_sortE {κ α : Type} [DecidableEq κ] (lt : κ → κ → Except String Bool)
    (k : α → κ) (hirr : ∀ u : κ, lt u u = Except.ok false) (v : κ) :
    ∀ xs ys : List α, sortE lt k xs = Except.ok ys →
      ys.filter (fun a => decide (k a = v)) = xs.filter (fun a => decide (k a = v)) := by
  intro xs
  induction xs with
  | nil =>
    intro ys h
    simp only [sortE] at h
    injection h with h'
    subst h'
    rfl
  | cons x xs ih =>
    intro ys h
    simp only [sortE] at h
    cases hs : sortE lt k xs with
    | error e =>
      rw [hs] at h
      exact Except.noConfusion h
    | ok l =>
      rw [hs] at h
      rw [filter_ordInsertE lt k hirr v x l ys h]
      simp only [List.filter_cons, ih l hs]

theorem ordInsertE_const {κ α : Type} (lt : κ → κ → Except String Bool) (k : α → κ)
    (hc : ∀ a b : α, lt (k a) (k b) = Except.ok false) (x : α) (l : List α) :
    ordInsertE lt k x l = Except.ok (x :: l) := by
  cases l with
  | nil => rfl
  | cons y ys => simp [ordInsertE, hc y x]

theorem sortE_const {κ α : Type} (lt : κ → κ → Except String Bool) (k : α → κ)
    (hc : ∀ a b : α, lt (k a) (k b) = Except.ok false) :
    ∀ zs : List α, sortE lt k zs = Except.ok zs := by
  intro zs
  induction zs with
  | nil => rfl
  | cons x xs ih => simp [sortE, ih, ordInsertE_const lt k hc x xs]

/-- C6: the sort over the surviving mirrors with the built key function is
stable — whenever the modelled `sorted` succeeds, the records carrying any
fixed key value appear in the output in exactly their original (feed)
order, for either value of `reverse`; and with an empty sort-field list
the built key is the empty tuple for every mirror, so the sort preserves
the feed order entirely. -/
theorem sorted_stable {κ α : Type} [DecidableEq κ] (lt : κ → κ → Except String Bool)
    (k : α → κ) (hirr : ∀ u : κ, lt u u = Except.ok false) (rev : Bool)
    (xs ys : List α) (hs : pySortedE lt k rev xs = Except.ok ys) (v : κ) :
    ys.filter (fun a => decide (k a = v)) = xs.filter (fun a => decide (k a = v)) ∧
      (∀ m : Mirror, get_key [] SORTING_DEFAULTS m = []) ∧
      (∀ (rev' : Bool) (zs : List Mirror),
        pySortedE pyListLt (fun m => get_key [] SORTING_DEFAULTS m) rev' zs = Except.ok zs) := by
  refine ⟨?_, fun m => rfl, ?_⟩
  · unfold pySortedE at hs
    cases rev with
    | false =>
      simp only [Bool.false_eq_true, if_false] at hs
      exact filter_sortE lt k hirr v xs ys hs
    | true =>
      simp only [if_true] at hs
      exact filter_sortE (fun a b => lt b a) k (fun u => hirr u) v xs ys hs
  · intro rev' zs
    unfold pySortedE
    cases rev' with
    | false =>
      simp only [Bool.false_eq_true, if_false]
      exact sortE_const _ _ (fun a b => rfl) zs
    | true =>
      simp only [if_true]
      exact sortE_const _ _ (fun a b => rfl) zs

theorem sorted_stable_witness :
    (∀ u : Nat, ltNat u u = Except.ok false) ∧
    pySortedE ltNat (fun n : Nat => n) false [3, 1, 2] = Except.ok [1, 2, 3] ∧
    (([1, 2, 3] : List Nat).filter (fun a => decide ((fun n : Nat => n) a = 2)) =
        ([3, 1, 2] : List Nat).filter (fun a => decide ((fun n : Nat => n) a = 2)) ∧
      (∀ m : Mirror, get_key [] SORTING_DEFAULTS m = []) ∧
      (∀ (rev' : Bool) (zs : List Mirror),
        pySortedE pyListLt (fun m => get_key [] SORTING_DEFAULTS m) rev' zs = Except.ok zs)) :=
  ⟨fun u => by simp [ltNat], rfl,
    sorted_stable ltNat (fun n : Nat => n) (fun u => by simp [ltNat]) false [3, 1, 2]
      [1, 2, 3] rfl 2⟩

theorem strTruthyMem_iff (cs : List String) (o : Option String) :
    strTruthyMem cs o = true ↔
      ∃ c, o = some c ∧ c ≠ "" ∧ cs.contains (casefold c) = true := by
  cases o with
  | none => simp [strTruthyMem]
  | some c => simp [strTruthyMem, bne_iff_ne]

/-- C7: when `countries` is set and non-empty, the country predicate keeps
a mirror exactly when its (present, truthy) country name or country code
casefolds into the requested list; a mirror lacking both fields is
rejected; and on the feed with country codes DE, US, DE under the filter
`countries=["de"]`, exactly mirrors 1 and 3 survive, in that order. -/
theorem match_country_spec (cfg : Configuration) (cs : List String) (m : Mirror)
    (hcs : cfg.countries = some cs) (hne : cs ≠ []) :
    (match_country cfg m = true ↔
      ((∃ c, m.country = some c ∧ c ≠ "" ∧ cs.contains (casefold c) = true) ∨
        (∃ c, m.country_code = some c ∧ c ≠ "" ∧ cs.contains (casefold c) = true))) ∧
    (m.country = none → m.country_code = none → match_country cfg m = false) ∧
    pyFilter (matchAll cfgDE) [mDE1, mUS, mDE2] = Except.ok [mDE1, mDE2] := by
  refine ⟨?_, ?_, rfl⟩
  · simp only [match_country, hcs, Bool.or_eq_true, strTruthyMem_iff]
  · intro h1 h2
    simp [match_country, hcs, h1, h2, strTruthyMem]

theorem match_country_spec_witness :
    cfgDE.countries = some ["de"] ∧ (["de"] : List String) ≠ [] ∧
    ((match_country cfgDE mDE1 = true ↔
      ((∃ c, mDE1.country = some c ∧ c ≠ "" ∧
          (["de"] : List String).contains (casefold c) = true) ∨
        (∃ c, mDE1.country_code = some c ∧ c ≠ "" ∧
          (["de"] : List String).contains (casefold c) = true))) ∧
    (mDE1.country = none → mDE1.country_code = none → match_country cfgDE mDE1 = false) ∧
    pyFilter (matchAll cfgDE) [mDE1, mUS, mDE2] = Except.ok [mDE1, mDE2]) :=
  ⟨rfl, by decide, match_country_spec cfgDE ["de"] mDE1 rfl (by decide)⟩

theorem pySortedE_nil {κ α : Type} (lt : κ → κ → Except String Bool) (k : α → κ)
    (rev : Bool) : pySortedE lt k rev ([] : List α) = Except.ok [] := by
  cases rev <;> rfl

/-- C8: when filtering yields zero mirrors, the run exits 0 with zero
mirror lines exactly when the resolved limit is literally 0, and exits 1
(the no-mirrors-found failure) for every other limit, including unset. -/
theorem mainCore_empty_result (cfg : Configuration) (rev : Bool) (mirrors : List Mirror)
    (hempty : pyFilter (matchAll cfg) mirrors = Except.ok []) :
    (cfg.limit = some 0 → mainCore cfg rev mirrors = Except.ok (0, [])) ∧
    (cfg.limit ≠ some 0 → mainCore cfg rev mirrors = Except.ok (1, [])) := by
  constructor
  · intro h0
    simp [mainCore, hempty, pySortedE_nil, limit, limitAux, h0]
  · intro h0
    simp [mainCore, hempty, pySortedE_nil, limit, limitAux, h0]

theorem mainCore_empty_result_witness :
    pyFilter (matchAll cfgEmptyC) [mDE1] = Except.ok [] ∧
    ((cfgEmptyC.limit = some 0 → mainCore cfgEmptyC false [mDE1] = Except.ok (0, [])) ∧
      (cfgEmptyC.limit ≠ some 0 → mainCore cfgEmptyC false [mDE1] = Except.ok (1, []))) :=
  ⟨rfl, mainCore_empty_result cfgEmptyC false [mDE1] rfl⟩

theorem strTruthyMem_nil (o : Option String) : strTruthyMem [] o = false := by
  cases o with
  | none => rfl
  | some c => simp [strTruthyMem]

/-- C10: loading a config file whose filtering section has no countries
entry parses the countries to the empty list, the merge keeps that empty
list when the flag side is unset, and the resulting predicate rejects
every mirror — `match` returns false regardless of the mirror's country
data, so such a configuration filters out the whole feed. -/
theorem load_empty_countries (p : IniFile) (flags : Configuration)
    (hp : p.get "filtering" "countries" = none) (hf : flags.countries = none) :
    get_cistrings p "filtering" "countries" = [] ∧
    (Configuration.load flags (some p)).countries = some [] ∧
    (∀ m : Mirror, match_country (Configuration.load flags (some p)) m = false) ∧
    (∀ m : Mirror, matchAll (Configuration.load flags (some p)) m = Except.ok false) := by
  have hg : get_cistrings p "filtering" "countries" = [] := by
    unfold get_cistrings
    rw [hp]
  have hc : (Configuration.load flags (some p)).countries = some [] := by
    simp [Configuration.load, Configuration.update, Configuration.from_ini, pyOrOpt, hf, hg]
  have hm : ∀ m : Mirror, match_country (Configuration.load flags (some p)) m = false := by
    intro m
    simp [match_country, hc, strTruthyMem_nil]
  refine ⟨hg, hc, hm, ?_⟩
  intro m
  simp [matchAll, matchAllAux, MATCH_FUNCS, hm m]

theorem load_empty_countries_witness :
    ini0.get "filtering" "countries" = none ∧ flags0.countries = none ∧
    get_cistrings ini0 "filtering" "countries" = [] ∧
    (Configuration.load flags0 (some ini0)).countries = some [] ∧
    match_country (Configuration.load flags0 (some ini0)) mDE1 = false ∧
    matchAll (Configuration.load flags0 (some ini0)) mDE1 = Except.ok false :=
  ⟨rfl, rfl, (load_empty_countries ini0 flags0 rfl rfl).1,
    (load_empty_countries ini0 flags0 rfl rfl).2.1,
    (load_empty_countries ini0 flags0 rfl rfl).2.2.1 mDE1,
    (load_empty_countries ini0 flags0 rfl rfl).2.2.2 mDE1⟩
